import Mathlib

/-!
Shallow embedding of the simulation core of `doctorWhoSpaceInvasion.py`
(Doctor Who Space Invasion, a Space-Invaders-style pygame arcade game).

Geometry is modelled over exact rationals: every quantity the claims touch
is produced by the same arithmetic expressions the Python code computes
(additions, subtractions, multiplication, true division, `min`), evaluated
here over `ℚ`.  `pygame.Rect` coordinates are integers obtained by
truncation toward zero, as Python's `int()`.  The three random sources of
the game — the per-invader fire roll (`random.random()`), the damage-decal
placement (`random.randint` batches inside `Barrier.takeDamage`), and the
invader/barrier/defender type choice (`random.choice`) — are determinised
as explicit oracle parameters threaded through the step, so that every
theorem quantifies over all possible draws.
-/

namespace Invasion

/-- Truncation toward zero, as Python's `int()` on a float. -/
def ratTrunc (q : ℚ) : ℤ := if 0 ≤ q then ⌊q⌋ else -⌊-q⌋

/-- Python's integer floor division `a // b`, on the rational embedding. -/
def floorDiv (a b : ℚ) : ℚ := (⌊a / b⌋ : ℤ)

/-- `displayWidth = 800` -/
def displayWidth : ℚ := 800

/-- `displayHeight = 600` -/
def displayHeight : ℚ := 600

/-- `invaderRows = 3` -/
def invaderRows : ℕ := 3

/-- `invaderColumns = 6` -/
def invaderColumns : ℕ := 6

/-- `invaderSpacing = 65` -/
def invaderSpacing : ℚ := 65

/-- `invaderStartX = 100` -/
def invaderStartX : ℚ := 100

/-- `invaderStartY = 50` -/
def invaderStartY : ℚ := 50

/-- `startInvaderSpeed = 1` -/
def startInvaderSpeed : ℚ := 1

/-- `totalInvaders = invaderRows * invaderColumns` (= 18). -/
def totalInvaders : ℕ := invaderRows * invaderColumns

/-- `barrierY = displayHeight - 200` -/
def barrierY : ℚ := displayHeight - 200

/-- `barrierSpacing = 180` -/
def barrierSpacing : ℚ := 180

/-- `invaderFireRate = 0.001` -/
def invaderFireRate : ℚ := 1 / 1000

/-- The cap `0.3` applied to the adjusted fire rate in the main loop. -/
def invaderFireRateCap : ℚ := 3 / 10

/-- `lives = 3` at module initialisation. -/
def initialLives : ℤ := 3

/-- A pygame rectangle: integer position and size. -/
structure PyRect where
  x : ℤ
  y : ℤ
  w : ℤ
  h : ℤ
deriving Repr, DecidableEq

/-- `pygame.Rect.colliderect`: strict overlap of two rectangles. -/
def PyRect.colliderect (a b : PyRect) : Bool :=
  (a.x < b.x + b.w) && (b.x < a.x + a.w) && (a.y < b.y + b.h) && (b.y < a.y + a.h)

/-- The `Laser` class: a vertically moving rectangle. -/
structure Laser where
  x : ℚ
  y : ℚ
  speed : ℚ
  colour : ℕ × ℕ × ℕ
  width : ℚ
  height : ℚ
deriving Repr, DecidableEq

/-- `Laser.move`: `self.y += self.speed`. -/
def Laser.move (l : Laser) : Laser := { l with y := l.y + l.speed }

/-- `Laser.getRect`: `pygame.Rect(self.x, self.y, self.width, self.height)`. -/
def Laser.getRect (l : Laser) : PyRect :=
  ⟨ratTrunc l.x, ratTrunc l.y, ratTrunc l.width, ratTrunc l.height⟩

/-- `Laser.isOffScreen`: `self.y < 0 or self.y > displayHeight`. -/
def Laser.isOffScreen (l : Laser) (dh : ℚ) : Bool := l.y < 0 || l.y > dh

/-- The `Invader` class (sprite loading omitted: presentation only). -/
structure Invader where
  name : String
  x : ℚ
  y : ℚ
  width : ℚ
  height : ℚ
  laserColour : ℕ × ℕ × ℕ
  laserSpeed : ℚ
  laserWidth : ℚ
  laserHeight : ℚ
  scoreValue : ℕ
deriving Repr, DecidableEq

/-- `Entity.getRect` for an invader. -/
def Invader.getRect (i : Invader) : PyRect :=
  ⟨ratTrunc i.x, ratTrunc i.y, ratTrunc i.width, ratTrunc i.height⟩

/-- The `Defender` class (sprite loading omitted). -/
structure Defender where
  name : String
  x : ℚ
  y : ℚ
  width : ℚ
  height : ℚ
  speed : ℚ
  laserColour : ℕ × ℕ × ℕ
  laserSpeed : ℚ
  laserWidth : ℚ
  laserHeight : ℚ
  moveLeft : Bool
  moveRight : Bool
deriving Repr, DecidableEq

/-- `Entity.getRect` for the defender. -/
def Defender.getRect (d : Defender) : PyRect :=
  ⟨ratTrunc d.x, ratTrunc d.y, ratTrunc d.width, ratTrunc d.height⟩

/-- `Defender.move`: two sequential guarded moves, no clamping.

    if self.moveLeft and self.x > 0: self.x -= self.speed
    if self.moveRight and self.x < displayWidth - self.width: self.x += self.speed -/
def Defender.move (d : Defender) (dw : ℚ) : Defender :=
  let d1 := if d.moveLeft ∧ 0 < d.x then { d with x := d.x - d.speed } else d
  if d1.moveRight ∧ d1.x < dw - d1.width then { d1 with x := d1.x + d1.speed } else d1

/-- `Defender.getLaserStart`: `(self.x + self.width // 2, self.y)`. -/
def Defender.getLaserStart (d : Defender) : ℚ × ℚ := (d.x + floorDiv d.width 2, d.y)

/-- A damage decal `(damageX, damageY, damageSize)` drawn on a barrier. -/
abbrev Decal := ℤ × ℤ × ℤ

/-- The `Barrier` class (sprite and image surface omitted). -/
structure Barrier where
  name : String
  x : ℚ
  y : ℚ
  width : ℚ
  height : ℚ
  health : ℤ
  maxHealth : ℤ
  damageRegions : List Decal
deriving Repr, DecidableEq

/-- `Entity.getRect` for a barrier. -/
def Barrier.getRect (b : Barrier) : PyRect :=
  ⟨ratTrunc b.x, ratTrunc b.y, ratTrunc b.width, ratTrunc b.height⟩

/-- `Barrier.isDestroyed`: `self.health <= 0`. -/
def Barrier.isDestroyed (b : Barrier) : Bool := b.health ≤ 0

/-- `Barrier.takeDamage`: decrement health; if the barrier is still alive,
append the freshly rolled batch of damage decals (the batch — the
`random.randint(3, 6)` decals the Python code rolls — is supplied by the
determinised oracle as `newDecals`).  Decals are never removed. -/
def Barrier.takeDamage (b : Barrier) (newDecals : List Decal) : Barrier :=
  let b1 : Barrier := { b with health := b.health - 1 }
  if b1.isDestroyed then b1
  else { b1 with damageRegions := b1.damageRegions ++ newDecals }

/-- `Barrier.draw` draws only when `not self.isDestroyed()`; this is the
guard, the presentation blit itself being out of scope. -/
def Barrier.drawn (b : Barrier) : Bool := !b.isDestroyed

/-- The keys of the `invaderTypes` dictionary. -/
inductive InvaderKind
  | Dalek
  | Cyberman
  | WeepingAngel
deriving Repr, DecidableEq

/-- One row of the `invaderTypes` dictionary (sprite file omitted). -/
structure InvaderConfig where
  width : ℚ
  height : ℚ
  laserColour : ℕ × ℕ × ℕ
  laserSpeed : ℚ
  laserWidth : ℚ
  laserHeight : ℚ
  scoreValue : ℕ
deriving Repr, DecidableEq

/-- The `invaderTypes` dictionary. -/
def invaderTypes : InvaderKind → InvaderConfig
  | .Dalek => ⟨35, 67, (255, 0, 0), 3, 4, 8, 15⟩
  | .Cyberman => ⟨35, 67, (0, 0, 255), 3, 4, 8, 5⟩
  | .WeepingAngel => ⟨35, 67, (128, 0, 128), 3, 4, 8, 25⟩

/-- Display name of an invader kind. -/
def InvaderKind.label : InvaderKind → String
  | .Dalek => "Dalek"
  | .Cyberman => "Cyberman"
  | .WeepingAngel => "WeepingAngel"

/-- `Invader.__init__` applied to a row of `invaderTypes` at a grid slot. -/
def mkInvader (k : InvaderKind) (x y : ℚ) : Invader :=
  let c := invaderTypes k
  { name := k.label, x := x, y := y, width := c.width, height := c.height
    laserColour := c.laserColour, laserSpeed := c.laserSpeed
    laserWidth := c.laserWidth, laserHeight := c.laserHeight
    scoreValue := c.scoreValue }

/-- The invader grid built at module initialisation and in `resetGame`:
row-major, `x = invaderStartX + column * invaderSpacing`,
`y = invaderStartY + row * 80`, each slot's type drawn by `random.choice`
(determinised as the `choose` oracle, indexed by slot in draw order). -/
def invaderGrid (choose : ℕ → InvaderKind) : List Invader :=
  ((List.range invaderRows).map fun row =>
    (List.range invaderColumns).map fun column =>
      mkInvader (choose (row * invaderColumns + column))
        (invaderStartX + (column : ℚ) * invaderSpacing)
        (invaderStartY + (row : ℚ) * 80)).flatten

/-- The defender built at module initialisation and in `resetGame` from the
`K9` row of `defenderTypes`: width 60, speed 5, centred horizontally,
80 pixels from the bottom; the constructor computes
`height = int(width * 76 / 90)`. -/
def mkDefender : Defender :=
  { name := "K9"
    x := floorDiv displayWidth 2 - floorDiv 60 2
    y := displayHeight - 80
    width := 60
    height := (ratTrunc (60 * 76 / 90) : ℤ)
    speed := 5
    laserColour := (255, 255, 255)
    laserSpeed := -7
    laserWidth := 5
    laserHeight := 10
    moveLeft := false
    moveRight := false }

/-- One of the 4 barriers built at module initialisation and in `resetGame`:
`x = 100 + i * barrierSpacing`, `y = barrierY`, width 100, height 24,
health 3 (the `barrierTypes` health at init; the constructor default, which
is also 3, in `resetGame`). -/
def mkBarrier (i : ℕ) : Barrier :=
  { name := "Barrier", x := 100 + (i : ℚ) * barrierSpacing, y := barrierY
    width := 100, height := 24, health := 3, maxHealth := 3, damageRegions := [] }

/-- The speed computation at the head of `moveInvaders`:
`totalInvaders / remainingInvaders` (Python true division) capped at
`startInvaderSpeed * 3`, falling back to `startInvaderSpeed` when no
invaders remain. -/
def sweepSpeed (remaining : ℕ) : ℚ :=
  if 0 < remaining then
    min (startInvaderSpeed * ((totalInvaders : ℚ) / (remaining : ℚ))) (startInvaderSpeed * 3)
  else startInvaderSpeed

/-- `moveInvaders`: advance every invader's x by `currentSpeed * direction`;
if any (post-move) x satisfies `x <= 0 or x >= displayWidth - width`, drop
every invader's y by 10 and flip the direction.  Returns the new invader
list and the new direction. -/
def moveInvaders (invs : List Invader) (dir : ℤ) : List Invader × ℤ :=
  let currentSpeed := sweepSpeed invs.length
  let moved := invs.map fun inv => { inv with x := inv.x + currentSpeed * (dir : ℚ) }
  let reachedEdge := moved.any fun inv =>
    decide (inv.x ≤ 0) || decide (displayWidth - inv.width ≤ inv.x)
  if reachedEdge then (moved.map fun inv => { inv with y := inv.y + 10 }, -dir)
  else (moved, dir)

/-- The adjusted fire rate computed in the main loop:
`invaderFireRate * (totalInvaders / len(invaders))` capped at 0.3, falling
back to `invaderFireRate` when no invaders remain. -/
def adjustedFireRate (remaining : ℕ) : ℚ :=
  if 0 < remaining then
    min (invaderFireRate * ((totalInvaders : ℚ) / (remaining : ℚ))) invaderFireRateCap
  else invaderFireRate

/-- The laser an invader fires: bottom-centre of the invader,
`x = invader.x + invader.width // 2`, `y = invader.y + invader.height`. -/
def mkInvaderLaser (inv : Invader) : Laser :=
  { x := inv.x + floorDiv inv.width 2, y := inv.y + inv.height
    speed := inv.laserSpeed, colour := inv.laserColour
    width := inv.laserWidth, height := inv.laserHeight }

/-- The invader fire loop of the main game loop: each invader fires when
its `random.random()` roll (determinised as `rolls`, indexed by position in
the list) is below the adjusted fire rate. -/
def invaderFire (rolls : ℕ → ℚ) (invs : List Invader) : List Laser :=
  let rate := adjustedFireRate invs.length
  invs.enum.filterMap fun p => if rolls p.1 < rate then some (mkInvaderLaser p.2) else none

/-- Split a list at the first element satisfying `p`: Python's scan used by
every `for ... if collide ... remove ... break` inner loop.  Returns the
prefix before the match, the matching element, and the suffix after it. -/
def splitFirstHit (p : α → Bool) : List α → Option (List α × α × List α)
  | [] => none
  | a :: rest =>
    if p a then some ([], a, rest)
    else (splitFirstHit p rest).map fun q => (a :: q.1, q.2.1, q.2.2)

/-- Result of the defender-laser × invader loop of
`checkDefenderLaserCollisions`. -/
structure LaserInvaderResult where
  lasers : List Laser
  invaders : List Invader
  score : ℕ
deriving Repr, DecidableEq

/-- The first loop of `checkDefenderLaserCollisions`:

    for laser in defenderLasers:
        for invader in invaders:
            if laser.getRect().colliderect(invader.getRect()):
                defenderLasers.remove(laser)
                score += invader.scoreValue
                invaders.remove(invader)
                break

Removing the current laser while the `for` iterates shifts the list under
the iterator, so the laser directly after a hit stays in the list but is
never scanned (CPython list-iterator semantics); the recursion reproduces
that: on a hit, the head of `rest` is carried over unscanned. -/
def laserInvaderPass : List Laser → List Invader → ℕ → LaserInvaderResult
  | [], invs, s => ⟨[], invs, s⟩
  | l :: rest, invs, s =>
    match splitFirstHit (fun inv => l.getRect.colliderect inv.getRect) invs with
    | none =>
      let t := laserInvaderPass rest invs s
      ⟨l :: t.lasers, t.invaders, t.score⟩
    | some (pre, inv, suf) =>
      match rest with
      | [] => ⟨[], pre ++ suf, s + inv.scoreValue⟩
      | r :: rs =>
        let t := laserInvaderPass rs (pre ++ suf) (s + inv.scoreValue)
        ⟨r :: t.lasers, t.invaders, t.score⟩

/-- Result of a laser × barrier loop. -/
structure LaserBarrierResult where
  lasers : List Laser
  barriers : List Barrier
  ds : List (List Decal)
deriving Repr, DecidableEq

/-- The laser × barrier loop shared by `checkDefenderLaserCollisions` and
`checkInvaderLaserCollisions`:

    for laser in lasers:
        for barrier in barriers:
            if laser.getRect().colliderect(barrier.getRect()):
                lasers.remove(laser)
                barrier.takeDamage()
                if barrier.isDestroyed():
                    barriers.remove(barrier)
                break

with the same iterator-shift skip as `laserInvaderPass`, and the decal
stream `ds` supplying one batch per `takeDamage` call. -/
def laserBarrierPass : List Laser → List Barrier → List (List Decal) → LaserBarrierResult
  | [], bs, ds => ⟨[], bs, ds⟩
  | l :: rest, bs, ds =>
    match splitFirstHit (fun b => l.getRect.colliderect b.getRect) bs with
    | none =>
      let t := laserBarrierPass rest bs ds
      ⟨l :: t.lasers, t.barriers, t.ds⟩
    | some (pre, b, suf) =>
      let b2 := b.takeDamage (ds.headD [])
      let bs2 := if b2.isDestroyed then pre ++ suf else pre ++ b2 :: suf
      match rest with
      | [] => ⟨[], bs2, ds.tail⟩
      | r :: rs =>
        let t := laserBarrierPass rs bs2 ds.tail
        ⟨r :: t.lasers, t.barriers, t.ds⟩

/-- Result of the invader-body × barrier loop of `checkInvaderCollisions`. -/
structure InvaderBarrierResult where
  invaders : List Invader
  barriers : List Barrier
  ds : List (List Decal)
deriving Repr, DecidableEq

/-- The first loop of `checkInvaderCollisions`: an invader crashing into a
barrier is removed and damages the barrier; the barrier is removed when
destroyed.  Same iterator-shift skip, on the invader list this time. -/
def invaderBarrierPass : List Invader → List Barrier → List (List Decal) → InvaderBarrierResult
  | [], bs, ds => ⟨[], bs, ds⟩
  | i :: rest, bs, ds =>
    match splitFirstHit (fun b => i.getRect.colliderect b.getRect) bs with
    | none =>
      let t := invaderBarrierPass rest bs ds
      ⟨i :: t.invaders, t.barriers, t.ds⟩
    | some (pre, b, suf) =>
      let b2 := b.takeDamage (ds.headD [])
      let bs2 := if b2.isDestroyed then pre ++ suf else pre ++ b2 :: suf
      match rest with
      | [] => ⟨[], bs2, ds.tail⟩
      | r :: rs =>
        let t := invaderBarrierPass rs bs2 ds.tail
        ⟨r :: t.invaders, t.barriers, t.ds⟩

/-- The game-state tag: `"start"`, `"playing"`, `"gameover"`. -/
inductive GState
  | start
  | playing
  | gameover
deriving Repr, DecidableEq

/-- The mutable module-level game state the main loop operates on. -/
structure GameState where
  score : ℕ
  lives : ℤ
  gameState : GState
  victory : Bool
  defender : Defender
  defenderLasers : List Laser
  invaders : List Invader
  invaderLasers : List Laser
  barriers : List Barrier
  invaderDirection : ℤ
deriving Repr, DecidableEq

/-- `checkDefenderLaserCollisions`: the laser × invader loop followed by
the laser × barrier loop over the lasers that survived it. -/
def checkDefenderLaserCollisions (ls : List Laser) (invs : List Invader) (s : ℕ)
    (bs : List Barrier) (ds : List (List Decal)) :
    LaserInvaderResult × LaserBarrierResult :=
  let p1 := laserInvaderPass ls invs s
  let p2 := laserBarrierPass p1.lasers bs ds
  (p1, p2)

/-- Result of `checkInvaderLaserCollisions`: the surviving invader lasers,
barriers, decal stream, and whether any surviving laser overlaps the
defender (`"defender hit"`). -/
structure InvaderLaserCheck where
  lasers : List Laser
  barriers : List Barrier
  ds : List (List Decal)
  hit : Bool
deriving Repr, DecidableEq

/-- `checkInvaderLaserCollisions`: the laser × barrier loop, then a scan of
the remaining invader lasers against the defender (the scan removes
nothing; it only reports the first overlap). -/
def checkInvaderLaserCollisions (ls : List Laser) (bs : List Barrier) (d : Defender)
    (ds : List (List Decal)) : InvaderLaserCheck :=
  let p := laserBarrierPass ls bs ds
  ⟨p.lasers, p.barriers, p.ds, p.lasers.any fun l => l.getRect.colliderect d.getRect⟩

/-- Result of `checkInvaderCollisions`. -/
structure InvaderBodyCheck where
  invaders : List Invader
  barriers : List Barrier
  ds : List (List Decal)
  hit : Bool
deriving Repr, DecidableEq

/-- `checkInvaderCollisions`: the invader × barrier loop, then a scan of
the remaining invaders against the defender. -/
def checkInvaderCollisions (invs : List Invader) (bs : List Barrier) (d : Defender)
    (ds : List (List Decal)) : InvaderBodyCheck :=
  let p := invaderBarrierPass invs bs ds
  ⟨p.invaders, p.barriers, p.ds, p.invaders.any fun i => i.getRect.colliderect d.getRect⟩

/-- `respawnDefender`: recentre the defender horizontally, set
`y = displayHeight - defender.height - 20`, and clear both laser lists. -/
def respawnDefender (st : GameState) : GameState :=
  { st with
    defender := { st.defender with
      x := floorDiv displayWidth 2 - floorDiv st.defender.width 2
      y := displayHeight - st.defender.height - 20 }
    defenderLasers := []
    invaderLasers := [] }

/-- The hit-resolution block the main loop runs (twice, verbatim) when a
collision check reports `"defender hit"`: decrement lives, then respawn if
lives remain, else game over with `victory = False`. -/
def resolveDefenderHit (st : GameState) : GameState :=
  let st1 : GameState := { st with lives := st.lives - 1 }
  if 0 < st1.lives then respawnDefender st1
  else { st1 with victory := false, gameState := GState.gameover }

/-- Frame phases up to and including `checkDefenderLaserCollisions`, in the
order of the main loop: defender move, `moveInvaders`, defender-laser
advance and cull, invader fire, invader-laser advance and cull (the lasers
fired this frame are appended before the advance, so they move in the same
frame), then the defender-laser collision pass.  Returns the updated state
and the remaining decal stream. -/
def framePhaseA (rolls : ℕ → ℚ) (ds : List (List Decal)) (st : GameState) :
    GameState × List (List Decal) :=
  let d := st.defender.move displayWidth
  let mi := moveInvaders st.invaders st.invaderDirection
  let dls := (st.defenderLasers.map Laser.move).filter fun l => !l.isOffScreen displayHeight
  let fired := invaderFire rolls mi.1
  let ils := ((st.invaderLasers ++ fired).map Laser.move).filter fun l =>
    !l.isOffScreen displayHeight
  let c := checkDefenderLaserCollisions dls mi.1 st.score st.barriers ds
  ({ st with defender := d, invaders := c.1.invaders, invaderDirection := mi.2
             defenderLasers := c.2.lasers, invaderLasers := ils
             score := c.1.score, barriers := c.2.barriers },
   c.2.ds)

/-- Frame phases through `checkInvaderLaserCollisions`: state, remaining
decal stream, and the laser-hit flag. -/
def framePhaseB (rolls : ℕ → ℚ) (ds : List (List Decal)) (st : GameState) :
    GameState × List (List Decal) × Bool :=
  let a := framePhaseA rolls ds st
  let c := checkInvaderLaserCollisions a.1.invaderLasers a.1.barriers a.1.defender a.2
  ({ a.1 with invaderLasers := c.lasers, barriers := c.barriers }, c.ds, c.hit)

/-- The game-logic body of one frame in the `"playing"` state (lines
714–799): on a laser hit the loop `continue`s, so the invader-body check,
and on any hit the victory check, never run in that frame. -/
def stepCore (rolls : ℕ → ℚ) (ds : List (List Decal)) (st : GameState) : GameState :=
  let b := framePhaseB rolls ds st
  if b.2.2 then resolveDefenderHit b.1
  else
    let c := checkInvaderCollisions b.1.invaders b.1.barriers b.1.defender b.2.1
    let st3 : GameState := { b.1 with invaders := c.invaders, barriers := c.barriers }
    if c.hit then resolveDefenderHit st3
    else if st3.invaders.isEmpty then { st3 with victory := true, gameState := GState.gameover }
    else st3

/-- One frame's game logic: the simulation runs only in `"playing"`. -/
def gameLogicStep (rolls : ℕ → ℚ) (ds : List (List Decal)) (st : GameState) : GameState :=
  if st.gameState = GState.playing then stepCore rolls ds st else st

/-- Whether this frame's simulation would act on a `"defender hit"` event:
the invader-laser check fires, or it stays quiet and the invader-body
check fires. -/
def defenderHitFlag (rolls : ℕ → ℚ) (ds : List (List Decal)) (st : GameState) : Bool :=
  let b := framePhaseB rolls ds st
  b.2.2 || (checkInvaderCollisions b.1.invaders b.1.barriers b.1.defender b.2.1).hit

/-- `resetGame`: restore score, lives, victory flag, defender, invader
grid, direction, barriers, and empty both laser lists; the `choose` oracle
determinises the per-slot `random.choice` of invader types. -/
def resetGame (choose : ℕ → InvaderKind) (st : GameState) : GameState :=
  { st with
    score := 0, lives := 3, victory := false
    defender := mkDefender, defenderLasers := []
    invaders := invaderGrid choose, invaderLasers := [], invaderDirection := 1
    barriers := (List.range 4).map mkBarrier }

/-- The module-initialisation state (the game opens on the start screen). -/
def initState (choose : ℕ → InvaderKind) : GameState :=
  { score := 0, lives := initialLives, gameState := GState.start, victory := false
    defender := mkDefender, defenderLasers := []
    invaders := invaderGrid choose, invaderLasers := []
    barriers := (List.range 4).map mkBarrier, invaderDirection := 1 }

/-- The keys the event handler distinguishes. -/
inductive Key
  | left
  | right
  | space
  | escape
  | other
deriving Repr, DecidableEq

/-- A pygame input event as the loop branches on it (QUIT and the
ESC-on-gameover branch only stop the outer loop and mutate no game
state). -/
inductive GEvent
  | keydown (k : Key)
  | keyup (k : Key)
deriving Repr, DecidableEq

/-- The laser fired on SPACE while playing, appended to `defenderLasers`. -/
def fireDefenderLaser (st : GameState) : GameState :=
  let p := st.defender.getLaserStart
  { st with defenderLasers := st.defenderLasers ++
      [{ x := p.1, y := p.2, speed := st.defender.laserSpeed
         colour := st.defender.laserColour, width := st.defender.laserWidth
         height := st.defender.laserHeight }] }

/-- The event-handling branch of the main loop (lines 668–709). -/
def handleEvent (choose : ℕ → InvaderKind) (e : GEvent) (st : GameState) : GameState :=
  match e, st.gameState with
  | .keydown .space, .start => { st with gameState := GState.playing }
  | .keydown .space, .gameover => { resetGame choose st with gameState := GState.playing }
  | .keydown .left, .playing => { st with defender := { st.defender with moveLeft := true } }
  | .keydown .right, .playing => { st with defender := { st.defender with moveRight := true } }
  | .keydown .space, .playing => fireDefenderLaser st
  | .keyup .left, .playing => { st with defender := { st.defender with moveLeft := false } }
  | .keyup .right, .playing => { st with defender := { st.defender with moveRight := false } }
  | _, _ => st

/-- States the main loop can be in: the initial state, closed under event
handling and under the per-frame game logic, for every draw of the random
oracles. -/
inductive Reachable : GameState → Prop
  | init (choose : ℕ → InvaderKind) : Reachable (initState choose)
  | event (choose : ℕ → InvaderKind) (e : GEvent) {st : GameState} :
      Reachable st → Reachable (handleEvent choose e st)
  | step (rolls : ℕ → ℚ) (ds : List (List Decal)) {st : GameState} :
      Reachable st → Reachable (gameLogicStep rolls ds st)

/-- Division that refuses a zero denominator, to make the guarding of the
two divisions by the remaining-invader count explicit. -/
def checkedDiv (a b : ℚ) : Option ℚ := if b = 0 then none else some (a / b)

/-- `sweepSpeed` with its division made explicitly checked: the division
only happens under the `remainingInvaders > 0` guard. -/
def sweepSpeedChecked (remaining : ℕ) : Option ℚ :=
  if 0 < remaining then
    (checkedDiv (totalInvaders : ℚ) (remaining : ℚ)).map fun m =>
      min (startInvaderSpeed * m) (startInvaderSpeed * 3)
  else some startInvaderSpeed

/-- `adjustedFireRate` with its division made explicitly checked. -/
def adjustedFireRateChecked (remaining : ℕ) : Option ℚ :=
  if 0 < remaining then
    (checkedDiv (totalInvaders : ℚ) (remaining : ℚ)).map fun m =>
      min (invaderFireRate * m) invaderFireRateCap
  else some invaderFireRate

/-- A lone Dalek two frames short of the right edge: after one sweep at
speed `min(18/1, 3) = 3` its x is exactly `displayWidth - width = 765` —
the boundary of the legal interval, which the code treats as an edge hit. -/
def edgeInvader : Invader := mkInvader .Dalek 762 50

/-- A defender standing at `x = 3` (not a multiple of its speed 5) about
to move left. -/
def lowDefender : Defender := { mkDefender with x := 3, moveLeft := true }

/-- A Dalek at `(100, 100)`. -/
def pairedInvader : Invader := mkInvader .Dalek 100 100

/-- A defender laser overlapping `pairedInvader`. -/
def pairedLaser : Laser :=
  { x := 110, y := 120, speed := -7, colour := (255, 255, 255), width := 5, height := 10 }

/-- A playing state with one laser in flight on each side, used to exhibit
what `respawnDefender` does. -/
def hitState : GameState :=
  { initState (fun _ => InvaderKind.Dalek) with
    gameState := GState.playing
    defenderLasers := [mkInvaderLaser (mkInvader .Dalek 100 50)]
    invaderLasers := [mkInvaderLaser (mkInvader .Cyberman 200 50)] }

/-- The initial state switched to `"playing"`. -/
def playingState : GameState :=
  { initState (fun _ => InvaderKind.Dalek) with gameState := GState.playing }

/-- The lives invariant the main loop maintains: lives never negative, and
strictly positive whenever the game is not over. -/
def LivesInv (st : GameState) : Prop :=
  0 ≤ st.lives ∧ (st.gameState ≠ GState.gameover → 1 ≤ st.lives)

lemma splitFirstHit_eq {α : Type} {p : α → Bool} :
    ∀ {l pre suf : List α} {a : α},
      splitFirstHit p l = some (pre, a, suf) → l = pre ++ a :: suf ∧ p a = true
  | [], _, _, _, h => by simp [splitFirstHit] at h
  | b :: rest, pre, suf, a, h => by
    rw [splitFirstHit] at h
    by_cases hb : p b
    · rw [if_pos hb] at h
      simp only [Option.some.injEq, Prod.mk.injEq] at h
      obtain ⟨h1, h2, h3⟩ := h
      subst h1; subst h2; subst h3
      exact ⟨rfl, hb⟩
    · rw [if_neg hb] at h
      cases hsp : splitFirstHit p rest with
      | none => rw [hsp] at h; simp at h
      | some q =>
        obtain ⟨q1, q2, q3⟩ := q
        rw [hsp] at h
        simp only [Option.map_some', Option.some.injEq, Prod.mk.injEq] at h
        obtain ⟨h1, h2, h3⟩ := h
        obtain ⟨hrest, hq⟩ := splitFirstHit_eq hsp
        subst h1; subst h2; subst h3; subst hrest
        exact ⟨rfl, hq⟩

lemma moveInvaders_length (invs : List Invader) (dir : ℤ) :
    (moveInvaders invs dir).1.length = invs.length := by
  unfold moveInvaders
  dsimp only
  split <;> simp

lemma moveInvaders_x (invs : List Invader) (dir : ℤ) (i : ℕ) :
    ((moveInvaders invs dir).1[i]?).map Invader.x
      = (invs[i]?).map fun inv => inv.x + sweepSpeed invs.length * (dir : ℚ) := by
  unfold moveInvaders
  dsimp only
  split
  · simp only [List.getElem?_map, Option.map_map]
    rfl
  · simp only [List.getElem?_map, Option.map_map]
    rfl

lemma framePhaseA_lives (rolls : ℕ → ℚ) (ds : List (List Decal)) (st : GameState) :
    (framePhaseA rolls ds st).1.lives = st.lives := rfl

lemma framePhaseA_gameState (rolls : ℕ → ℚ) (ds : List (List Decal)) (st : GameState) :
    (framePhaseA rolls ds st).1.gameState = st.gameState := rfl

lemma framePhaseB_lives (rolls : ℕ → ℚ) (ds : List (List Decal)) (st : GameState) :
    (framePhaseB rolls ds st).1.lives = st.lives := rfl

lemma framePhaseB_gameState (rolls : ℕ → ℚ) (ds : List (List Decal)) (st : GameState) :
    (framePhaseB rolls ds st).1.gameState = st.gameState := rfl

lemma resolveDefenderHit_lives (st : GameState) :
    (resolveDefenderHit st).lives = st.lives - 1 := by
  unfold resolveDefenderHit respawnDefender
  dsimp only
  split <;> rfl

lemma resolveDefenderHit_at_one (st : GameState) (h : st.lives = 1) :
    resolveDefenderHit st
      = { st with lives := 0, victory := false, gameState := GState.gameover } := by
  unfold resolveDefenderHit
  dsimp only
  rw [h]
  norm_num

lemma livesInv_resolveDefenderHit (st : GameState) (h : 1 ≤ st.lives) :
    LivesInv (resolveDefenderHit st) := by
  unfold resolveDefenderHit respawnDefender
  dsimp only
  split
  case isTrue hpos =>
    have hpos2 : 0 < st.lives - 1 := hpos
    refine ⟨?_, fun _ => ?_⟩
    · show (0 : ℤ) ≤ st.lives - 1
      omega
    · show (1 : ℤ) ≤ st.lives - 1
      omega
  case isFalse hpos =>
    refine ⟨?_, fun hne => absurd rfl hne⟩
    show (0 : ℤ) ≤ st.lives - 1
    omega

lemma livesInv_initState (choose : ℕ → InvaderKind) : LivesInv (initState choose) := by
  refine ⟨?_, fun _ => ?_⟩ <;> norm_num [initState, initialLives, LivesInv]

lemma livesInv_handleEvent (choose : ℕ → InvaderKind) (e : GEvent) (st : GameState)
    (h : LivesInv st) : LivesInv (handleEvent choose e st) := by
  obtain ⟨h0, h1⟩ := h
  cases e with
  | keydown k =>
    cases k <;> cases hg : st.gameState <;>
      simp only [handleEvent, hg] <;>
      first
      | exact ⟨h0, h1⟩
      | exact ⟨h0, fun _ => h1 (by rw [hg]; intro hc; cases hc)⟩
      | exact ⟨by norm_num [resetGame], fun _ => by norm_num [resetGame]⟩
  | keyup k =>
    cases k <;> cases hg : st.gameState <;>
      simp only [handleEvent, hg] <;>
      first
      | exact ⟨h0, h1⟩
      | exact ⟨h0, fun _ => h1 (by rw [hg]; intro hc; cases hc)⟩

lemma livesInv_gameLogicStep (rolls : ℕ → ℚ) (ds : List (List Decal)) (st : GameState)
    (h : LivesInv st) : LivesInv (gameLogicStep rolls ds st) := by
  unfold gameLogicStep
  split
  case isTrue hp =>
    obtain ⟨h0, h1⟩ := h
    have hl : 1 ≤ st.lives := h1 (by rw [hp]; intro hc; cases hc)
    unfold stepCore
    dsimp only
    split
    case isTrue hb =>
      exact livesInv_resolveDefenderHit _ (by rw [framePhaseB_lives]; exact hl)
    case isFalse hb =>
      split
      case isTrue hc =>
        apply livesInv_resolveDefenderHit
        show 1 ≤ (framePhaseB rolls ds st).1.lives
        rw [framePhaseB_lives]
        exact hl
      case isFalse hc =>
        split
        case isTrue hemp =>
          refine ⟨?_, fun hne => absurd rfl hne⟩
          show (0 : ℤ) ≤ (framePhaseB rolls ds st).1.lives
          rw [framePhaseB_lives]
          omega
        case isFalse hemp =>
          refine ⟨?_, fun _ => ?_⟩
          · show (0 : ℤ) ≤ (framePhaseB rolls ds st).1.lives
            rw [framePhaseB_lives]
            omega
          · show (1 : ℤ) ≤ (framePhaseB rolls ds st).1.lives
            rw [framePhaseB_lives]
            exact hl
  case isFalse hp => exact h

lemma reachable_livesInv (st : GameState) (h : Reachable st) : LivesInv st := by
  induction h with
  | init choose => exact livesInv_initState choose
  | event choose e hst ih => exact livesInv_handleEvent choose e _ ih
  | step rolls ds hst ih => exact livesInv_gameLogicStep rolls ds _ ih

/-- C1: with a non-empty invader list, the sweep speed used by
`moveInvaders` equals `min(baseSpeed * (totalInvaders / remaining),
baseSpeed * 3)`; in particular for `remaining = 3` (total 18, base speed 1,
cap 3) the speed is 3; and every invader's x advances by exactly that speed
times the shared direction. -/
theorem claim1_sweep_speed (invs : List Invader) (dir : ℤ) (i : ℕ) (hne : invs ≠ []) :
    sweepSpeed invs.length
        = min (startInvaderSpeed * ((totalInvaders : ℚ) / (invs.length : ℚ)))
            (startInvaderSpeed * 3) ∧
    sweepSpeed 3 = 3 ∧
    ((moveInvaders invs dir).1[i]?).map Invader.x
        = (invs[i]?).map fun inv => inv.x + sweepSpeed invs.length * (dir : ℚ) := by
  refine ⟨?_, ?_, moveInvaders_x invs dir i⟩
  · unfold sweepSpeed
    rw [if_pos (List.length_pos.mpr hne)]
  · norm_num [sweepSpeed, startInvaderSpeed, totalInvaders, invaderRows, invaderColumns]

/-- Witness for C1 at a one-invader list. -/
theorem claim1_sweep_speed_witness :
    sweepSpeed [mkInvader .Dalek 100 50].length
        = min (startInvaderSpeed * ((totalInvaders : ℚ) / ([mkInvader .Dalek 100 50].length : ℚ)))
            (startInvaderSpeed * 3) ∧
    sweepSpeed 3 = 3 ∧
    ((moveInvaders [mkInvader .Dalek 100 50] 1).1[0]?).map Invader.x
        = (([mkInvader .Dalek 100 50])[0]?).map fun inv =>
            inv.x + sweepSpeed [mkInvader .Dalek 100 50].length * ((1 : ℤ) : ℚ) :=
  claim1_sweep_speed [mkInvader .Dalek 100 50] 1 0 (by simp)

lemma edgeInvader_move :
    moveInvaders [edgeInvader] 1 = ([{ edgeInvader with x := 765, y := 60 }], -1) := by
  have hs : sweepSpeed [edgeInvader].length = 3 := by
    norm_num [sweepSpeed, startInvaderSpeed, totalInvaders, invaderRows, invaderColumns]
  unfold moveInvaders
  dsimp only
  rw [hs]
  norm_num [edgeInvader, mkInvader, invaderTypes, InvaderKind.label, displayWidth]

/-- C2 counterexample: `moveInvaders` on a lone invader whose post-move x
is exactly `displayWidth - width = 765` — still inside the closed interval
`[0, displayWidth - width]`, so per the claim no descent or reversal should
happen — yet the code's `>=` test fires: y gains 10 and the direction
flips. -/
theorem claim2_counterexample :
    (∀ inv ∈ (moveInvaders [edgeInvader] 1).1,
        0 ≤ inv.x ∧ inv.x ≤ displayWidth - inv.width) ∧
    (moveInvaders [edgeInvader] 1).2 = -1 ∧
    (∀ inv ∈ (moveInvaders [edgeInvader] 1).1, inv.y = edgeInvader.y + 10) := by
  rw [edgeInvader_move]
  refine ⟨?_, rfl, ?_⟩ <;>
    · intro inv hmem
      rw [List.mem_singleton] at hmem
      subst hmem
      norm_num [edgeInvader, mkInvader, invaderTypes, displayWidth]

/-- C2 amended: the global descent-and-reverse triggers exactly when some
post-move x is `≤ 0` or `≥ displayWidth - width` — when an invader reaches
or passes the boundary of `[0, displayWidth - width]`, not only when it
leaves that closed interval; then every invader's y gains exactly 10 and
the direction is negated, otherwise all y and the direction are unchanged.
The trigger is global: one invader at the edge moves every invader down. -/
theorem claim2_amended (invs : List Invader) (dir : ℤ) (moved : List Invader)
    (hmoved : moved = invs.map fun inv =>
      { inv with x := inv.x + sweepSpeed invs.length * (dir : ℚ) }) :
    ((∃ inv ∈ moved, inv.x ≤ 0 ∨ displayWidth - inv.width ≤ inv.x) →
      moveInvaders invs dir = (moved.map fun inv => { inv with y := inv.y + 10 }, -dir)) ∧
    ((∀ inv ∈ moved, 0 < inv.x ∧ inv.x < displayWidth - inv.width) →
      moveInvaders invs dir = (moved, dir)) := by
  subst hmoved
  have hrfl : moveInvaders invs dir
      = if ((invs.map fun inv =>
              { inv with x := inv.x + sweepSpeed invs.length * (dir : ℚ) }).any fun inv =>
            decide (inv.x ≤ 0) || decide (displayWidth - inv.width ≤ inv.x)) = true
        then ((invs.map fun inv =>
                { inv with x := inv.x + sweepSpeed invs.length * (dir : ℚ) }).map
                  fun inv => { inv with y := inv.y + 10 }, -dir)
        else (invs.map fun inv =>
                { inv with x := inv.x + sweepSpeed invs.length * (dir : ℚ) }, dir) := rfl
  constructor
  · intro h
    rw [hrfl, if_pos]
    rw [List.any_eq_true]
    obtain ⟨inv, hmem, hc⟩ := h
    exact ⟨inv, hmem, by simpa using hc⟩
  · intro h
    rw [hrfl, if_neg]
    rw [List.any_eq_true]
    rintro ⟨inv, hmem, hc⟩
    obtain ⟨hl, hr⟩ := h inv hmem
    rcases (by simpa using hc : inv.x ≤ 0 ∨ displayWidth - inv.width ≤ inv.x) with hc2 | hc2
    · exact absurd hc2 (not_le.mpr hl)
    · exact absurd hc2 (not_le.mpr hr)

/-- Witness for C2's amended theorem: the lone edge invader triggers the
descent-and-reverse branch. -/
theorem claim2_amended_witness :
    moveInvaders [edgeInvader] 1
      = (([edgeInvader].map fun inv =>
            { inv with x := inv.x + sweepSpeed [edgeInvader].length * ((1 : ℤ) : ℚ) }).map
            fun inv => { inv with y := inv.y + 10 }, -1) := by
  refine (claim2_amended [edgeInvader] 1 _ rfl).1 ?_
  refine ⟨_, List.mem_map_of_mem _ (List.mem_singleton.mpr rfl), Or.inr ?_⟩
  show displayWidth - edgeInvader.width
      ≤ edgeInvader.x + sweepSpeed [edgeInvader].length * ((1 : ℤ) : ℚ)
  norm_num [displayWidth, edgeInvader, mkInvader, invaderTypes, sweepSpeed,
    startInvaderSpeed, totalInvaders, invaderRows, invaderColumns]

/-- C3 counterexample: the movement is a guarded step, not a clamp — a
defender at `x = 3` (speed 5) moving left ends at `x = -2`, outside
`[0, displayWidth - defenderWidth]`. -/
theorem claim3_counterexample :
    (lowDefender.move displayWidth).x = -2 ∧ (lowDefender.move displayWidth).x < 0 := by
  norm_num [Defender.move, lowDefender, mkDefender]

lemma defender_move_width (d : Defender) (dw : ℚ) : (d.move dw).width = d.width := by
  unfold Defender.move
  dsimp only
  split_ifs <;> rfl

/-- C3 amended: the left/right delta is applied only under the guards
`x > 0` and `x < displayWidth - width`, with no clamping, so an unaligned
position can step outside the interval; but from any position that is a
multiple of the speed (5, the game's defender speed) inside
`[0, displayWidth - defenderWidth]` — which covers every position
reachable from the centred start — the resulting x stays in the interval
and remains a multiple of 5. -/
theorem claim3_amended (d : Defender) (k : ℤ)
    (hw : d.width = 60) (hs : d.speed = 5) (hx : d.x = 5 * (k : ℚ))
    (h0 : 0 ≤ d.x) (h1 : d.x ≤ displayWidth - d.width) :
    0 ≤ (d.move displayWidth).x ∧
    (d.move displayWidth).x ≤ displayWidth - (d.move displayWidth).width ∧
    ∃ m : ℤ, (d.move displayWidth).x = 5 * (m : ℚ) := by
  rw [defender_move_width, hw]
  have hq0 : (0 : ℚ) ≤ (k : ℚ) := by
    rw [hx] at h0
    linarith
  have hk0 : 0 ≤ k := by exact_mod_cast hq0
  have hq1 : 5 * (k : ℚ) ≤ 740 := by
    rw [hx, hw] at h1
    norm_num [displayWidth] at h1
    exact h1
  have hk1 : 5 * k ≤ 740 := by exact_mod_cast hq1
  unfold Defender.move
  dsimp only
  split_ifs with hA hB hB
  · -- moved left then right: back to the start
    dsimp only
    rw [hs, hx]
    refine ⟨by linarith, by norm_num [displayWidth]; linarith, ⟨k, by ring⟩⟩
  · -- moved left only
    have hpos : (0 : ℚ) < 5 * (k : ℚ) := by rw [hx] at hA; exact hA.2
    have hkpos : 1 ≤ k := by
      have : (0 : ℚ) < (k : ℚ) := by linarith
      have : 0 < k := by exact_mod_cast this
      omega
    have h5 : (5 : ℚ) ≤ 5 * (k : ℚ) := by
      have : (1 : ℚ) ≤ (k : ℚ) := by exact_mod_cast hkpos
      linarith
    dsimp only
    rw [hs, hx]
    refine ⟨by linarith, by norm_num [displayWidth]; linarith, ⟨k - 1, by push_cast; ring⟩⟩
  · -- moved right only
    have hlt : d.x < displayWidth - d.width := hB.2
    rw [hx, hw] at hlt
    norm_num [displayWidth] at hlt
    have hklt : 5 * k < 740 := by exact_mod_cast hlt
    have hkle : 5 * (k + 1) ≤ 740 := by omega
    have hqle : 5 * ((k : ℚ) + 1) ≤ 740 := by exact_mod_cast hkle
    dsimp only
    rw [hs, hx]
    refine ⟨by linarith, by norm_num [displayWidth]; linarith, ⟨k + 1, by push_cast; ring⟩⟩
  · -- no movement
    rw [hx]
    refine ⟨by linarith, ?_, ⟨k, rfl⟩⟩
    rw [hx, hw] at h1
    norm_num [displayWidth] at h1 ⊢
    linarith

/-- Witness for C3's amended theorem at the centred start position
`x = 370 = 5 * 74`. -/
theorem claim3_amended_witness :
    0 ≤ (mkDefender.move displayWidth).x ∧
    (mkDefender.move displayWidth).x
        ≤ displayWidth - (mkDefender.move displayWidth).width ∧
    ∃ m : ℤ, (mkDefender.move displayWidth).x = 5 * (m : ℚ) :=
  claim3_amended mkDefender 74 rfl rfl
    (by norm_num [mkDefender, floorDiv, displayWidth])
    (by norm_num [mkDefender, floorDiv, displayWidth])
    (by norm_num [mkDefender, floorDiv, displayWidth])

/-- C7: the code contradicts its own docstring ("Respawn the defender at
the starting position"): `respawnDefender` recentres x correctly (370) but
sets `y = displayHeight - height - 20 = 530`, while the defender is
created at `y = displayHeight - 80 = 520`.  Both laser lists are cleared
as claimed. -/
theorem claim7_respawn_divergence :
    (respawnDefender hitState).defender.x = mkDefender.x ∧
    mkDefender.y = 520 ∧
    (respawnDefender hitState).defender.y = 530 ∧
    (respawnDefender hitState).defender.y ≠ mkDefender.y ∧
    (respawnDefender hitState).defenderLasers = [] ∧
    (respawnDefender hitState).invaderLasers = [] := by
  norm_num [respawnDefender, hitState, initState, mkDefender, floorDiv, ratTrunc,
    displayWidth, displayHeight]

/-- C10: both divisions by the remaining-invader count sit behind an
emptiness guard — the checked-division versions never return `none` — and
with zero invaders the sweep speed falls back to `startInvaderSpeed` and
the fire rate to the base `invaderFireRate`, so no division by zero is
reachable in any state. -/
theorem claim10_guarded_divisions :
    (∀ n : ℕ, sweepSpeedChecked n = some (sweepSpeed n)) ∧
    (∀ n : ℕ, adjustedFireRateChecked n = some (adjustedFireRate n)) ∧
    sweepSpeed 0 = startInvaderSpeed ∧
    adjustedFireRate 0 = invaderFireRate := by
  refine ⟨fun n => ?_, fun n => ?_, rfl, rfl⟩ <;>
    · cases n with
      | zero => rfl
      | succ m =>
        have hne : ((m + 1 : ℕ) : ℚ) ≠ 0 := by
          exact_mod_cast Nat.succ_ne_zero m
        simp only [sweepSpeedChecked, sweepSpeed, adjustedFireRateChecked, adjustedFireRate,
          checkedDiv, Nat.succ_pos, if_pos, if_neg hne, Option.map_some']

lemma laserInvaderPass_spec :
    ∀ (n : ℕ) (ls : List Laser), ls.length ≤ n → ∀ (invs : List Invader) (s : ℕ),
      ∃ destroyed : List Invader,
        invs.Perm ((laserInvaderPass ls invs s).invaders ++ destroyed) ∧
        destroyed.length + (laserInvaderPass ls invs s).lasers.length = ls.length ∧
        (laserInvaderPass ls invs s).score = s + (destroyed.map Invader.scoreValue).sum
  | _, [], _, invs, s => ⟨[], by simp [laserInvaderPass]⟩
  | 0, l :: rest, hlen, invs, s => by simp at hlen
  | n + 1, l :: rest, hlen, invs, s => by
    have hrest : rest.length ≤ n := by
      simp only [List.length_cons] at hlen
      omega
    rw [laserInvaderPass]
    cases hsp : splitFirstHit (fun inv => l.getRect.colliderect inv.getRect) invs with
    | none =>
      obtain ⟨destroyed, hperm, hlen2, hscore⟩ := laserInvaderPass_spec n rest hrest invs s
      refine ⟨destroyed, ?_, ?_, ?_⟩
      · dsimp only
        exact hperm
      · dsimp only [List.length_cons]
        omega
      · dsimp only
        exact hscore
    | some q =>
      obtain ⟨pre, inv, suf⟩ := q
      obtain ⟨hq, -⟩ := splitFirstHit_eq hsp
      subst hq
      cases rest with
      | nil =>
        refine ⟨[inv], ?_, by simp, by simp⟩
        dsimp only
        rw [List.append_assoc]
        exact List.Perm.append_left pre (List.perm_append_singleton inv suf).symm
      | cons r rs =>
        have hrs : rs.length ≤ n := by
          simp only [List.length_cons] at hlen
          omega
        obtain ⟨destroyed, hperm, hlen2, hscore⟩ :=
          laserInvaderPass_spec n rs hrs (pre ++ suf) (s + inv.scoreValue)
        refine ⟨inv :: destroyed, ?_, ?_, ?_⟩
        · dsimp only
          have h1 : (pre ++ inv :: suf).Perm (inv :: (pre ++ suf)) := List.perm_middle
          have h2 := hperm.cons inv
          have h3 : (inv :: ((laserInvaderPass rs (pre ++ suf)
                (s + inv.scoreValue)).invaders ++ destroyed)).Perm
              ((laserInvaderPass rs (pre ++ suf) (s + inv.scoreValue)).invaders
                ++ inv :: destroyed) :=
            List.perm_middle.symm
          exact (h1.trans h2).trans h3
        · dsimp only [List.length_cons]
          omega
        · dsimp only [List.map_cons, List.sum_cons]
          omega

lemma pairedLaser_hits : pairedLaser.getRect.colliderect pairedInvader.getRect = true := by
  simp only [PyRect.colliderect, Laser.getRect, Invader.getRect,
    pairedLaser, pairedInvader, mkInvader, invaderTypes, Bool.and_eq_true, decide_eq_true_eq]
  norm_num [ratTrunc]

lemma pairedLaser_pass :
    laserInvaderPass [pairedLaser] [pairedInvader, pairedInvader] 0
      = ⟨[], [pairedInvader], pairedInvader.scoreValue⟩ := by
  rw [laserInvaderPass, splitFirstHit, if_pos pairedLaser_hits]
  simp

/-- C4: in the defender-laser × invader pass, each processed hit removes
exactly one laser and one invader, and the score grows by exactly the
removed invaders' score values — so at most one invader is destroyed per
projectile per frame (the removed-invader count equals the removed-laser
count and is bounded by the projectile count); concretely, a laser
overlapping two invaders at the same position destroys exactly one of
them and awards exactly one score bump. -/
theorem claim4_laser_hits_one_invader :
    (∀ (ls : List Laser) (invs : List Invader) (s : ℕ),
      ∃ destroyed : List Invader,
        invs.Perm ((laserInvaderPass ls invs s).invaders ++ destroyed) ∧
        destroyed.length + (laserInvaderPass ls invs s).lasers.length = ls.length ∧
        (laserInvaderPass ls invs s).score = s + (destroyed.map Invader.scoreValue).sum) ∧
    laserInvaderPass [pairedLaser] [pairedInvader, pairedInvader] 0
      = ⟨[], [pairedInvader], pairedInvader.scoreValue⟩ :=
  ⟨fun ls invs s => laserInvaderPass_spec ls.length ls le_rfl invs s, pairedLaser_pass⟩

lemma takeDamage_health (b : Barrier) (dec : List Decal) :
    (b.takeDamage dec).health = b.health - 1 := by
  unfold Barrier.takeDamage
  dsimp only
  split <;> rfl

lemma takeDamage_alive (b : Barrier) (dec : List Decal)
    (h : (b.takeDamage dec).isDestroyed = false) : 0 < (b.takeDamage dec).health := by
  unfold Barrier.isDestroyed at h
  simp only [decide_eq_false_iff_not, not_le] at h
  exact h

lemma laserBarrierPass_alive :
    ∀ (n : ℕ) (ls : List Laser), ls.length ≤ n → ∀ (bs : List Barrier) (ds : List (List Decal)),
      (∀ b ∈ bs, 0 < b.health) →
      ∀ b ∈ (laserBarrierPass ls bs ds).barriers, 0 < b.health
  | _, [], _, bs, ds, halive => by simpa [laserBarrierPass] using halive
  | 0, l :: rest, hlen, bs, ds, halive => by simp at hlen
  | n + 1, l :: rest, hlen, bs, ds, halive => by
    have hrest : rest.length ≤ n := by
      simp only [List.length_cons] at hlen
      omega
    rw [laserBarrierPass]
    cases hsp : splitFirstHit (fun b => l.getRect.colliderect b.getRect) bs with
    | none =>
      dsimp only
      exact laserBarrierPass_alive n rest hrest bs ds halive
    | some q =>
      obtain ⟨pre, b, suf⟩ := q
      obtain ⟨hq, -⟩ := splitFirstHit_eq hsp
      subst hq
      have halive2 : ∀ b2 ∈ (if (b.takeDamage (ds.headD [])).isDestroyed
          then pre ++ suf else pre ++ b.takeDamage (ds.headD []) :: suf), 0 < b2.health := by
        intro b2 hb2
        by_cases hd : (b.takeDamage (ds.headD [])).isDestroyed
        · rw [if_pos hd] at hb2
          refine halive b2 ?_
          simp only [List.mem_append, List.mem_cons] at hb2 ⊢
          tauto
        · rw [if_neg hd] at hb2
          simp only [List.mem_append, List.mem_cons] at hb2
          rcases hb2 with hb2 | hb2 | hb2
          · exact halive b2 (by simp [List.mem_append, hb2])
          · subst hb2
            exact takeDamage_alive b _ (by simpa using hd)
          · exact halive b2 (by simp [List.mem_append, List.mem_cons, hb2])
      cases rest with
      | nil =>
        dsimp only
        simpa using halive2
      | cons r rs =>
        have hrs : rs.length ≤ n := by
          simp only [List.length_cons] at hlen
          omega
        dsimp only
        exact laserBarrierPass_alive n rs hrs _ _ halive2

lemma invaderBarrierPass_alive :
    ∀ (n : ℕ) (invs : List Invader), invs.length ≤ n →
      ∀ (bs : List Barrier) (ds : List (List Decal)),
      (∀ b ∈ bs, 0 < b.health) →
      ∀ b ∈ (invaderBarrierPass invs bs ds).barriers, 0 < b.health
  | _, [], _, bs, ds, halive => by simpa [invaderBarrierPass] using halive
  | 0, i :: rest, hlen, bs, ds, halive => by simp at hlen
  | n + 1, i :: rest, hlen, bs, ds, halive => by
    have hrest : rest.length ≤ n := by
      simp only [List.length_cons] at hlen
      omega
    rw [invaderBarrierPass]
    cases hsp : splitFirstHit (fun b => i.getRect.colliderect b.getRect) bs with
    | none =>
      dsimp only
      exact invaderBarrierPass_alive n rest hrest bs ds halive
    | some q =>
      obtain ⟨pre, b, suf⟩ := q
      obtain ⟨hq, -⟩ := splitFirstHit_eq hsp
      subst hq
      have halive2 : ∀ b2 ∈ (if (b.takeDamage (ds.headD [])).isDestroyed
          then pre ++ suf else pre ++ b.takeDamage (ds.headD []) :: suf), 0 < b2.health := by
        intro b2 hb2
        by_cases hd : (b.takeDamage (ds.headD [])).isDestroyed
        · rw [if_pos hd] at hb2
          refine halive b2 ?_
          simp only [List.mem_append, List.mem_cons] at hb2 ⊢
          tauto
        · rw [if_neg hd] at hb2
          simp only [List.mem_append, List.mem_cons] at hb2
          rcases hb2 with hb2 | hb2 | hb2
          · exact halive b2 (by simp [List.mem_append, hb2])
          · subst hb2
            exact takeDamage_alive b _ (by simpa using hd)
          · exact halive b2 (by simp [List.mem_append, List.mem_cons, hb2])
      cases rest with
      | nil =>
        dsimp only
        simpa using halive2
      | cons r rs =>
        have hrs : rs.length ≤ n := by
          simp only [List.length_cons] at hlen
          omega
        dsimp only
        exact invaderBarrierPass_alive n rs hrs _ _ halive2

/-- C8: barrier health strictly decreases on every `takeDamage` (so it is
monotonically non-increasing while the barrier lives); damage decals are
only ever appended, never removed; after any laser × barrier pass — the
loop shared by `checkDefenderLaserCollisions` and
`checkInvaderLaserCollisions` — and after any invader-body × barrier pass
(`checkInvaderCollisions`), all starting from all-alive barriers, every
barrier still in the collision list is alive — a destroyed barrier is
removed on the spot and so is never collision-tested again by any of the
three passes; and a destroyed barrier is never drawn. -/
theorem claim8_barrier_monotone (b : Barrier) (dec : List Decal) (ls : List Laser)
    (invs : List Invader) (bs : List Barrier) (ds ds2 : List (List Decal))
    (halive : ∀ b2 ∈ bs, 0 < b2.health) :
    (b.takeDamage dec).health = b.health - 1 ∧
    (∃ fresh, (b.takeDamage dec).damageRegions = b.damageRegions ++ fresh) ∧
    (∀ b2 ∈ (laserBarrierPass ls bs ds).barriers, 0 < b2.health) ∧
    (∀ b2 ∈ (invaderBarrierPass invs bs ds2).barriers, 0 < b2.health) ∧
    (∀ b2 : Barrier, b2.isDestroyed = true → b2.drawn = false) := by
  refine ⟨takeDamage_health b dec, ?_, laserBarrierPass_alive ls.length ls le_rfl bs ds halive,
    invaderBarrierPass_alive invs.length invs le_rfl bs ds2 halive,
    fun b2 h2 => by simp [Barrier.drawn, h2]⟩
  unfold Barrier.takeDamage
  dsimp only
  split
  · exact ⟨[], by simp⟩
  · exact ⟨dec, rfl⟩

/-- Witness for C8 at a fresh barrier, one decal batch, and a singleton
all-alive barrier list scanned by no laser and by one invader. -/
theorem claim8_barrier_monotone_witness :
    ((mkBarrier 0).takeDamage [(10, 10, 5)]).health = (mkBarrier 0).health - 1 ∧
    (∃ fresh, ((mkBarrier 0).takeDamage [(10, 10, 5)]).damageRegions
        = (mkBarrier 0).damageRegions ++ fresh) ∧
    (∀ b2 ∈ (laserBarrierPass [] [mkBarrier 1] []).barriers, 0 < b2.health) ∧
    (∀ b2 ∈ (invaderBarrierPass [mkInvader .Dalek 100 50] [mkBarrier 1] []).barriers,
        0 < b2.health) ∧
    (∀ b2 : Barrier, b2.isDestroyed = true → b2.drawn = false) :=
  claim8_barrier_monotone (mkBarrier 0) [(10, 10, 5)] [] [mkInvader .Dalek 100 50]
    [mkBarrier 1] [] []
    (by intro b2 hb2; rw [List.mem_singleton] at hb2; subst hb2; norm_num [mkBarrier])

/-- C5: within one playing-state frame, lives drop by at most one — the
step resolves at most one `"defender hit"` event — and when the
invader-laser check reports a hit the whole step is exactly that hit's
resolution: the loop `continue`s, so the invader-body collision check is
never made in that frame. -/
theorem claim5_single_hit_per_frame (rolls : ℕ → ℚ) (ds : List (List Decal)) (st : GameState)
    (h : st.gameState = GState.playing) :
    ((gameLogicStep rolls ds st).lives = st.lives ∨
      (gameLogicStep rolls ds st).lives = st.lives - 1) ∧
    ((framePhaseB rolls ds st).2.2 = true →
      gameLogicStep rolls ds st = resolveDefenderHit (framePhaseB rolls ds st).1) := by
  unfold gameLogicStep
  rw [if_pos h]
  unfold stepCore
  dsimp only
  by_cases hb : (framePhaseB rolls ds st).2.2 = true
  · rw [if_pos hb]
    refine ⟨Or.inr ?_, fun _ => rfl⟩
    rw [resolveDefenderHit_lives, framePhaseB_lives]
  · rw [if_neg hb]
    refine ⟨?_, fun hcon => absurd hcon hb⟩
    by_cases hc : (checkInvaderCollisions (framePhaseB rolls ds st).1.invaders
        (framePhaseB rolls ds st).1.barriers (framePhaseB rolls ds st).1.defender
        (framePhaseB rolls ds st).2.1).hit = true
    · rw [if_pos hc]
      right
      rw [resolveDefenderHit_lives]
      show (framePhaseB rolls ds st).1.lives - 1 = st.lives - 1
      rw [framePhaseB_lives]
    · rw [if_neg hc]
      left
      split
      · show (framePhaseB rolls ds st).1.lives = st.lives
        rw [framePhaseB_lives]
      · show (framePhaseB rolls ds st).1.lives = st.lives
        rw [framePhaseB_lives]

/-- Witness for C5 at the initial grid switched to playing, with fire
rolls that never pass and an empty decal stream. -/
theorem claim5_single_hit_per_frame_witness :
    ((gameLogicStep (fun _ => 1) [] playingState).lives = playingState.lives ∨
      (gameLogicStep (fun _ => 1) [] playingState).lives = playingState.lives - 1) ∧
    ((framePhaseB (fun _ => 1) [] playingState).2.2 = true →
      gameLogicStep (fun _ => 1) [] playingState
        = resolveDefenderHit (framePhaseB (fun _ => 1) [] playingState).1) :=
  claim5_single_hit_per_frame (fun _ => 1) [] playingState rfl

/-- C6: in every reachable state lives are non-negative; once the state is
`"gameover"` the simulation step is the identity (nothing moves, fires or
collides until a reset); and a defender hit taken at `lives = 1` drives
lives to exactly 0 and switches to `"gameover"` with `victory = false` in
that same step. -/
theorem claim6_lives_never_negative (st : GameState) (h : Reachable st) :
    0 ≤ st.lives ∧
    (∀ (rolls : ℕ → ℚ) (ds : List (List Decal)),
      st.gameState = GState.gameover → gameLogicStep rolls ds st = st) ∧
    (∀ (rolls : ℕ → ℚ) (ds : List (List Decal)),
      st.gameState = GState.playing → st.lives = 1 →
      defenderHitFlag rolls ds st = true →
      (gameLogicStep rolls ds st).gameState = GState.gameover ∧
      (gameLogicStep rolls ds st).victory = false ∧
      (gameLogicStep rolls ds st).lives = 0) := by
  refine ⟨(reachable_livesInv st h).1, fun rolls ds hgo => ?_, fun rolls ds hp h1 hflag => ?_⟩
  · unfold gameLogicStep
    rw [if_neg (by rw [hgo]; intro hc; cases hc)]
  · unfold gameLogicStep
    rw [if_pos hp]
    unfold stepCore
    dsimp only
    unfold defenderHitFlag at hflag
    dsimp only at hflag
    rw [Bool.or_eq_true] at hflag
    by_cases hb : (framePhaseB rolls ds st).2.2 = true
    · rw [if_pos hb]
      rw [resolveDefenderHit_at_one _ (by rw [framePhaseB_lives]; exact h1)]
      exact ⟨rfl, rfl, rfl⟩
    · have hc : (checkInvaderCollisions (framePhaseB rolls ds st).1.invaders
          (framePhaseB rolls ds st).1.barriers (framePhaseB rolls ds st).1.defender
          (framePhaseB rolls ds st).2.1).hit = true := by
        rcases hflag with hflag | hflag
        · exact absurd hflag hb
        · exact hflag
      rw [if_neg hb, if_pos hc]
      rw [resolveDefenderHit_at_one _ (by
        show (framePhaseB rolls ds st).1.lives = 1
        rw [framePhaseB_lives]
        exact h1)]
      exact ⟨rfl, rfl, rfl⟩

/-- Witness for C6 at the initial state. -/
theorem claim6_lives_never_negative_witness :
    0 ≤ (initState fun _ => InvaderKind.Dalek).lives ∧
    (∀ (rolls : ℕ → ℚ) (ds : List (List Decal)),
      (initState fun _ => InvaderKind.Dalek).gameState = GState.gameover →
      gameLogicStep rolls ds (initState fun _ => InvaderKind.Dalek)
        = (initState fun _ => InvaderKind.Dalek)) ∧
    (∀ (rolls : ℕ → ℚ) (ds : List (List Decal)),
      (initState fun _ => InvaderKind.Dalek).gameState = GState.playing →
      (initState fun _ => InvaderKind.Dalek).lives = 1 →
      defenderHitFlag rolls ds (initState fun _ => InvaderKind.Dalek) = true →
      (gameLogicStep rolls ds (initState fun _ => InvaderKind.Dalek)).gameState
          = GState.gameover ∧
      (gameLogicStep rolls ds (initState fun _ => InvaderKind.Dalek)).victory = false ∧
      (gameLogicStep rolls ds (initState fun _ => InvaderKind.Dalek)).lives = 0) :=
  claim6_lives_never_negative (initState fun _ => InvaderKind.Dalek)
    (Reachable.init fun _ => InvaderKind.Dalek)

/-- C9: from any prior state and any randomisation draw, `resetGame`
restores the exact initial invariants: lives 3, score 0, direction +1,
victory cleared, the defender recreated at its starting position, the
invader grid rebuilt at the same row-by-column positions as any initial
grid, the 4 barriers rebuilt at the same positions with full health and no
damage decals, and both projectile lists empty — only the randomised type
assignment (absent from the compared projections) may differ. -/
theorem claim9_reset_roundtrip (st : GameState) (c c2 : ℕ → InvaderKind) :
    (resetGame c st).lives = initialLives ∧
    (resetGame c st).score = 0 ∧
    (resetGame c st).invaderDirection = 1 ∧
    (resetGame c st).victory = false ∧
    (resetGame c st).defender = (initState c2).defender ∧
    ((resetGame c st).invaders.map fun i => (i.x, i.y))
        = ((initState c2).invaders.map fun i => (i.x, i.y)) ∧
    (resetGame c st).barriers.length = 4 ∧
    ((resetGame c st).barriers.map fun b => (b.x, b.y, b.health, b.damageRegions))
        = ((initState c2).barriers.map fun b => (b.x, b.y, b.health, b.damageRegions)) ∧
    (resetGame c st).defenderLasers = [] ∧
    (resetGame c st).invaderLasers = [] :=
  ⟨rfl, rfl, rfl, rfl, rfl, rfl, rfl, rfl, rfl, rfl⟩
